import Mathlib

/-!
Shallow embedding of the `mmlite` convenience layer over the OpenMM
molecular-dynamics engine, and proofs about its dispatch, caching and
lifecycle logic.

The embedding covers:
* `mmlite/simulation.py`: `camelcase`, `state_property`, `simulation_state`,
  `context_state`, `Simulation.create_integrator`, `Simulation.setup_context`,
  the `Simulation.integrator` cached property, and `Simulation.serialize`;
* `mmlite/mdsys.py`: `MdSys.__init__` keyword handling, `MdSys.integrator`,
  `MdSys.context`, the lazily cached `MdSys.simulation` property and
  `MdSys.reset`;
* `mmlite/system.py`: `SYSTEM_DEFAULTS` and the option merging performed by
  `SystemMixin.from_pdb` / `SystemMixin.from_gro`.

Engine objects (contexts, integrators, simulations) are modelled by records
carrying a numeric object identity; construction of a fresh engine object is
modelled by explicit allocation-state passing (`Alloc`), so that claims about
object identity ("a fresh integrator for every context", "the cached
simulation is returned unchanged") become statements about the allocated ids.
Python exceptions are modelled with `Except PyError`.
-/

/-- Python `str.split()` (no separator argument): split on runs of whitespace,
dropping empty pieces.  Used by `state_property`, `state_data`,
`simulation_state` and `context_state` to turn a string of quantity names
into a list. -/
def wordsAux : List Char → List Char → List (List Char)
  | [], acc => if acc = [] then [] else [acc.reverse]
  | c :: cs, acc =>
    if c.isWhitespace then
      if acc = [] then wordsAux cs [] else acc.reverse :: wordsAux cs []
    else wordsAux cs (c :: acc)

/-- Python `s.split()` on a Lean `String`. -/
def pySplit (s : String) : List String :=
  (wordsAux s.data []).map List.asString

/-- Python `str.title()` on a character list: an alphabetic character is
uppercased when the previous character is not alphabetic (or at the start of
the string) and lowercased otherwise; non-alphabetic characters are kept.
The boolean argument records whether the previous character was alphabetic. -/
def pyTitleAux : Bool → List Char → List Char
  | _, [] => []
  | prevAlpha, c :: cs =>
    (if c.isAlpha then (if prevAlpha then c.toLower else c.toUpper) else c)
      :: pyTitleAux c.isAlpha cs

/-- Model of `camelcase` from `mmlite/simulation.py`:
`a.title().replace('_', '')` — title-case the string, then remove every
underscore. -/
def camelcase (a : String) : String :=
  ((pyTitleAux false a.data).filter (fun c => c ≠ '_')).asString

/-- Python `needle in hay` for strings: substring (contiguous infix) test. -/
def pyInStr (needle hay : String) : Bool :=
  decide (needle.data <:+: hay.data)

/-- Python exceptions raised (or propagated) by the code under study. -/
inductive PyError where
  | valueError (msg : String)
  | attributeError (msg : String)
  deriving DecidableEq, Repr

/-- Holds exactly on an exceptional result carrying a `ValueError`. -/
def isValueError {α : Type} : Except PyError α → Bool
  | .error (.valueError _) => true
  | _ => false

/-- A `State` object as seen by `state_property`: the engine-owned snapshot is
opaque to the wrapper, which only interacts with it through `getattr` on
accessor-method names, so the model records which accessor methods the object
exposes, together with (for states produced by `getState`) the request that
produced the snapshot. -/
structure MMState where
  accessors : List String
  request : Option (List String × Bool × Int) := none
  deriving DecidableEq, Repr

/-- Python `getattr(state, name)`: succeeds when the state object exposes the
accessor, otherwise raises `AttributeError`. -/
def getattrState (st : MMState) (name : String) : Except PyError Unit :=
  if name ∈ st.accessors then .ok () else .error (.attributeError name)

/-- The accessor call performed by `state_property` on the state object:
the method name and the keyword arguments it is invoked with (the code
passes either no keyword arguments or `asNumpy=True`). -/
structure AccessorCall where
  method : String
  kwargs : List (String × Bool)
  deriving DecidableEq, Repr

/-- Single-name branch of `state_property` (`mmlite/simulation.py`): build the
method name `'get' + camelcase(property_name)`, look it up on the state with
`getattr` (raising `AttributeError` when absent), then pass `asNumpy=True`
exactly when `property_name in 'forces periodic_box_vectors positions
velocities'` (a Python substring test on that string). Returns the call made. -/
def state_property_one (st : MMState) (property_name : String) :
    Except PyError AccessorCall :=
  let method_name := "get" ++ camelcase property_name
  match getattrState st method_name with
  | .error e => .error e
  | .ok _ =>
    if pyInStr property_name "forces periodic_box_vectors positions velocities"
    then .ok ⟨method_name, [("asNumpy", true)]⟩
    else .ok ⟨method_name, []⟩

/-- Model of `state_property` for a string argument: when the string is a single word
it is dispatched directly; otherwise it is split on whitespace and each word
dispatched, collecting the list of calls (any exception propagates). -/
def state_property (st : MMState) (property_name : String) :
    Except PyError (AccessorCall ⊕ List AccessorCall) :=
  if (pySplit property_name).length = 1 then
    (state_property_one st property_name).map Sum.inl
  else
    ((pySplit property_name).mapM (state_property_one st)).map Sum.inr

deriving instance DecidableEq for Except

/-- The lowercase ASCII letters together with the underscore: the alphabet of
an "all-lowercase underscore-separated" quantity name. -/
def lowercaseOrUnderscore : List Char :=
  ['a','b','c','d','e','f','g','h','i','j','k','l','m',
   'n','o','p','q','r','s','t','u','v','w','x','y','z','_']

/-- Specification-level camel-casing, written from the spec's description
"title-cased with underscores removed": drop every underscore and uppercase
the first letter of each underscore-separated component.  The boolean records
whether the next letter starts a component. -/
def specCamelAux : Bool → List Char → List Char
  | _, [] => []
  | first, c :: cs =>
    if c = '_' then specCamelAux true cs
    else (if first then c.toUpper else c) :: specCamelAux false cs

/-- Specification-level camel-casing on strings. -/
def specCamelcase (q : String) : String := (specCamelAux true q.data).asString

/-- Allocation state for freshly constructed engine objects; each construction
draws the next unused object identity. -/
structure Alloc where
  nextId : Nat
  deriving DecidableEq, Repr

/-- Construct a fresh engine object: return its identity and advance the
allocator. -/
def fresh (w : Alloc) : Nat × Alloc := (w.nextId, ⟨w.nextId + 1⟩)

/-- A value carrying a physical unit, such as `2.0 * unit.femtoseconds`. -/
structure Quantity where
  value : ℚ
  u : String
  deriving DecidableEq, Repr

/-- Python values stored in keyword-argument dicts and attributes: unit-bearing
quantities, strings, class objects (identified by `__name__`), booleans and
plain numbers. -/
inductive Val where
  | qty (x : Quantity)
  | strv (s : String)
  | cls (n : String)
  | boolv (b : Bool)
  | num (x : ℚ)
  deriving DecidableEq, Repr

/-- Python `v.__name__`: defined for class objects only. -/
def clsName : Val → Option String
  | .cls n => some n
  | _ => none

/-- An engine integrator object: its identity, its stepping rule, and the
constructor arguments it was built with. -/
inductive IntegKind where
  | verlet
  | langevin
  deriving DecidableEq, Repr

/-- An integrator instance. -/
structure Integrator where
  id : Nat
  kind : IntegKind
  params : List Val
  deriving DecidableEq, Repr

/-- Modelled from the spec: the module `mmlite.defaults` is not under `src/`
(only `simulation.py` references `mmlite.defaults.temperature` and
`mmlite.defaults.friction`); per the spec's "default physical parameters
(time step, friction, temperature) supplied when not overridden" it supplies
the default temperature, taken equal to the `MdSys` default. -/
def defaults_temperature : Val := .qty ⟨298, "kelvin"⟩

/-- Modelled from the spec: default friction from the missing
`mmlite.defaults` module, taken equal to the `MdSys` default. -/
def defaults_friction : Val := .qty ⟨91, "1/picosecond"⟩

/-- The default `dt` of `Simulation.create_integrator`:
`1 * unit.femtoseconds`. -/
def oneFemtosecond : Val := .qty ⟨1, "femtosecond"⟩

/-- Python `kwargs.pop(key, default)` on a dict modelled as a key-unique
association list: the stored value (or the default when absent) together with
the dict with the key removed. -/
def dictPop (kw : List (String × Val)) (key : String) (dflt : Val) :
    Val × List (String × Val) :=
  ((kw.lookup key).getD dflt, kw.filter (fun p => p.1 ≠ key))

/-- Model of `Simulation.create_integrator` (`mmlite/simulation.py`): `'verlet'` gives a
fresh `VerletIntegrator(dt)`, `'langevin'` pops `temperature` and `friction`
from the keyword arguments (falling back to `mmlite.defaults`) and gives a
fresh `LangevinIntegrator(temperature, friction, dt)`, and any other name
raises `ValueError(name)`. -/
def create_integrator (name : String) (dt : Val) (kwargs : List (String × Val))
    (w : Alloc) : Except PyError (Integrator × Alloc) :=
  if name = "verlet" then
    let (i, w') := fresh w
    .ok (⟨i, .verlet, [dt]⟩, w')
  else if name = "langevin" then
    let p0 := dictPop kwargs "temperature" defaults_temperature
    let p1 := dictPop p0.2 "friction" defaults_friction
    let (i, w') := fresh w
    .ok (⟨i, .langevin, [p0.1, p1.1, dt]⟩, w')
  else .error (.valueError name)

/-- An engine `System` object; the wrapper only observes its particle count. -/
structure SystemObj where
  numParticles : Nat
  deriving DecidableEq, Repr

/-- An engine `Context` object: its identity and the identity of the integrator
that was passed to its constructor (the engine takes ownership of that
integrator). -/
structure Context where
  id : Nat
  integratorId : Nat
  deriving DecidableEq, Repr

/-- The accessor methods exposed by an engine `State` object. -/
def stdStateAccessors : List String :=
  ["getPositions", "getVelocities", "getForces", "getPeriodicBoxVectors",
   "getPotentialEnergy", "getKineticEnergy", "getTime", "getParameters",
   "getEnergyParameterDerivatives", "getPeriodicBoxVolume"]

/-- Model of `context.getState(**data, enforcePeriodicBox=pbc, groups=groups)`: the
engine returns a `State` snapshot; the model records the request that produced
it (the getter keywords set to `True`, the `enforcePeriodicBox` flag and the
force-group mask). -/
def Context.getState (_c : Context) (getters : List String) (pbc : Bool)
    (groups : Int) : MMState :=
  { accessors := stdStateAccessors, request := some (getters, pbc, groups) }

/-- The `mmlite.Simulation` object state relevant to the embedded methods:
the wrapped `System`, the engine-side particle positions, the cached
`_integrator` attribute, and the currently bound `context` attribute (the
parent class binds a context during `__init__`, so the attribute is always
present). -/
structure SimulationObj where
  system : SystemObj
  positions : List (ℚ × ℚ × ℚ)
  _integrator : Option Integrator
  context : Context
  deriving DecidableEq, Repr

/-- The `Simulation.integrator` property getter: when `self._integrator` is
`None` it is set to the default integrator `self.create_integrator()` (a fresh
`VerletIntegrator(1*femtoseconds)`); the cached integrator is returned
otherwise. -/
def SimulationObj.integrator (s : SimulationObj) (w : Alloc) :
    Except PyError (Integrator × SimulationObj × Alloc) :=
  match s._integrator with
  | some i => .ok (i, s, w)
  | none =>
    (create_integrator "verlet" oneFemtosecond [] w).map
      (fun p => (p.1, { s with _integrator := some p.1 }, p.2))

/-- Model of `Simulation.setup_context` (`mmlite/simulation.py`): read `self.integrator`
(the cached property above), construct `mm.Context(self.sys.system,
self.integrator, ...)` — a fresh engine context owning the integrator passed
to it — assign it to `self.context` and return it.  Position/velocity/state
initialization on the new context is performed engine-side and is not
observed by the model. -/
def SimulationObj.setup_context (s : SimulationObj) (w : Alloc) :
    Except PyError (Context × SimulationObj × Alloc) :=
  match s.integrator w with
  | .error e => .error e
  | .ok (i, s1, w1) =>
    let (cid, w2) := fresh w1
    let context : Context := ⟨cid, i.id⟩
    .ok (context, { s1 with context := context }, w2)

/-- Model of `XmlSerializer.serialize` applied to a `System`. -/
def serializeSystemXml (s : SystemObj) : String :=
  "<System numParticles=" ++ toString s.numParticles ++ "/>"

/-- Decimal-free rendering of a rational coordinate. -/
def encodeRat (x : ℚ) : String := toString x.num ++ "/" ++ toString x.den

/-- Rendering of one position vector. -/
def encodeVec (v : ℚ × ℚ × ℚ) : String :=
  "(" ++ encodeRat v.1 ++ "," ++ encodeRat v.2.1 ++ "," ++ encodeRat v.2.2 ++ ")"

/-- Model of `XmlSerializer.serialize` applied to a `State` holding positions. -/
def serializeStateXml (xp : List (ℚ × ℚ × ℚ)) : String :=
  "<State><Positions>" ++ String.join (xp.map encodeVec) ++ "</Positions></State>"

/-- Model of `Simulation.serialize` (`mmlite/simulation.py`): always serialize
`self._system` to XML; when the system has no particles the state part is
`None`, otherwise a fresh Reference-platform `VerletIntegrator` and `Context`
are constructed, the context is given `self.positions`, and the state obtained
with `getPositions=True` is serialized to XML. -/
def SimulationObj.serialize (s : SimulationObj) (w : Alloc) :
    (String × Option String) × Alloc :=
  let system_xml := serializeSystemXml s.system
  if s.system.numParticles = 0 then
    ((system_xml, none), w)
  else
    let (_iid, w1) := fresh w
    let (_cid, w2) := fresh w1
    ((system_xml, some (serializeStateXml s.positions)), w2)

/-- The `MdSys` attributes set by `MdSys.__init__` and used by the embedded
methods (`mmlite/mdsys.py`). -/
structure MdSys where
  integrator_class : Val
  dt : Val
  friction : Val
  temperature : Val
  _simulation : Option Nat
  deriving DecidableEq, Repr

/-- Model of `MdSys.__init__`: pop `integrator` (default the `VerletIntegrator` class;
a string is replaced by the class of that name via `getattr(mm.openmm, ·)`),
`dt` (default `2.0*femtoseconds`), `friction` (default `91.0/picosecond`) and
`temperature` (default `298.0*kelvin`) from the keyword arguments, forward the
remaining keyword arguments to the `TestSystem` base class, and set
`self._simulation = None`. Returns the constructed instance and the forwarded
keyword arguments. -/
def MdSys.init (kwargs : List (String × Val)) : MdSys × List (String × Val) :=
  let p0 := dictPop kwargs "integrator" (.cls "VerletIntegrator")
  let integ := match p0.1 with
    | .strv n => Val.cls n
    | v => v
  let p1 := dictPop p0.2 "dt" (.qty ⟨2, "femtosecond"⟩)
  let p2 := dictPop p1.2 "friction" (.qty ⟨91, "1/picosecond"⟩)
  let p3 := dictPop p2.2 "temperature" (.qty ⟨298, "kelvin"⟩)
  ({ integrator_class := integ, dt := p1.1, friction := p2.1,
     temperature := p3.1, _simulation := none }, p3.2)

/-- Model of `MdSys.integrator` (`mmlite/mdsys.py`): the method first reads
`self.integrator_class.__name__`, which raises `AttributeError` when the
stored value is not a class; on a class it returns a fresh integrator built
from the stored parameters, dispatching on the class name, and any name other
than `VerletIntegrator` and `LangevinIntegrator` raises
`ValueError(self.integrator_class)`. -/
def MdSys.integrator (m : MdSys) (w : Alloc) : Except PyError (Integrator × Alloc) :=
  match clsName m.integrator_class with
  | none => .error (.attributeError "__name__")
  | some n =>
    if n = "VerletIntegrator" then
      let (i, w') := fresh w
      .ok (⟨i, .verlet, [m.dt]⟩, w')
    else if n = "LangevinIntegrator" then
      let (i, w') := fresh w
      .ok (⟨i, .langevin, [m.temperature, m.friction, m.dt]⟩, w')
    else .error (.valueError n)

/-- Model of `MdSys.context` (`mmlite/mdsys.py`): construct `mm.Context(self.system,
self.integrator(), ...)` — the integrator argument is a fresh integrator from
the `integrator` method — and return the fresh context.  Setting positions on
the new context is engine-side and not observed by the model. -/
def MdSys.context (m : MdSys) (w : Alloc) : Except PyError (Context × Alloc) :=
  match MdSys.integrator m w with
  | .error e => .error e
  | .ok (i, w1) =>
    let (cid, w2) := fresh w1
    .ok (⟨cid, i.id⟩, w2)

/-- The `MdSys.simulation` property (`mmlite/mdsys.py`): when
`self._simulation` holds no simulation, construct `app.Simulation(topology,
system, self.integrator())` — allocating a fresh integrator and a fresh
simulation object — cache it in `self._simulation` and return it; otherwise
return the cached object (engine `Simulation` objects are truthy, so `if not
self._simulation` tests only for `None`). -/
def MdSys.simulation (m : MdSys) (w : Alloc) :
    Except PyError (Nat × MdSys × Alloc) :=
  match m._simulation with
  | some s => .ok (s, m, w)
  | none =>
    match MdSys.integrator m w with
    | .error e => .error e
    | .ok (_, w1) =>
      let (s, w2) := fresh w1
      .ok (s, { m with _simulation := some s }, w2)

/-- Model of `MdSys.reset`: `self._simulation = None`. -/
def MdSys.reset (m : MdSys) : MdSys := { m with _simulation := none }

/-- The first argument of `simulation_state`: a `Simulation`, a `Context` or a
`State` object. -/
inductive SimArg where
  | simulation (s : SimulationObj)
  | context (c : Context)
  | state (st : MMState)
  deriving DecidableEq, Repr

/-- The `data` argument of the state helpers: a whitespace-separated string of
quantity names, or a list of names. -/
inductive DataArg where
  | strv (s : String)
  | list (l : List String)
  deriving DecidableEq, Repr

/-- Normalization `if isinstance(data, str): data = data.split()`. -/
def normData : DataArg → List String
  | .strv s => pySplit s
  | .list l => l

/-- Key deduplication of a Python dict comprehension: duplicate keys collapse,
first occurrence order is kept (every value is `True` here, so the kept value
is unaffected). -/
def dedupKeysAux (seen : List String) : List String → List String
  | [] => []
  | k :: ks =>
    if k ∈ seen then dedupKeysAux seen ks
    else k :: dedupKeysAux (k :: seen) ks

/-- Model of the dict comprehension mapping each name `a` to the key
`'get' + camelcase(a)` with value `True`: the getter keywords passed to
`context.getState`. -/
def requestKeys (data : List String) : List String :=
  dedupKeysAux [] (data.map (fun a => "get" ++ camelcase a))

/-- Model of `simulation_state` (`mmlite/simulation.py`): a `State` argument is returned
as is; otherwise the context is taken from `simulation.context` when present
(`AttributeError` falls back to the argument itself), `data` is normalized to a
list of names, and the context is queried with the getter keyword for each
name set to `True`. -/
def simulation_state (simulation : SimArg) (data : DataArg) (pbc : Bool)
    (groups : Int) : MMState :=
  match simulation with
  | .state st => st
  | .simulation s => s.context.getState (requestKeys (normData data)) pbc groups
  | .context c => c.getState (requestKeys (normData data)) pbc groups

/-- The first argument of `context_state`: a `Context` or a `State` object. -/
inductive CtxArg where
  | context (c : Context)
  | state (st : MMState)
  deriving DecidableEq, Repr

/-- Model of `context_state` (`mmlite/simulation.py`): a `State` argument is returned as
is; otherwise the context is queried exactly as in `simulation_state`. -/
def context_state (context : CtxArg) (data : DataArg) (pbc : Bool)
    (groups : Int) : MMState :=
  match context with
  | .state st => st
  | .context c => c.getState (requestKeys (normData data)) pbc groups

/-- Model of `SYSTEM_DEFAULTS` from `mmlite/system.py`: the module-level dict of shared
`createSystem` options. -/
def SYSTEM_DEFAULTS : List (String × Val) :=
  [("nonbondedMethod", .strv "PME"),
   ("nonbondedCutoff", .qty ⟨1, "nanometer"⟩),
   ("constraints", .strv "HBonds"),
   ("rigidWater", .boolv true),
   ("ewaldErrorTolerance", .num (5 / 10000))]

/-- Python `d[k] = v` on a dict modelled as a key-unique association list:
replace the stored value in place when the key is present, append the new
binding at the end otherwise. -/
def dictSet : List (String × Val) → String → Val → List (String × Val)
  | [], k, v => [(k, v)]
  | p :: ps, k, v => if p.1 = k then (k, v) :: ps else p :: dictSet ps k v

/-- Python `d.update(kw)`: set every key of `kw` in `d`, in order. -/
def dictUpdate (d kw : List (String × Val)) : List (String × Val) :=
  kw.foldl (fun acc p => dictSet acc p.1 p.2) d

/-- Model of `copy.deepcopy` on an option dict: an independent value copy, so that
subsequent updates leave the original dict object untouched. -/
def deepcopy (d : List (String × Val)) : List (String × Val) := d

/-- Model of `SystemMixin.from_pdb` (`mmlite/system.py`), restricted to the option
handling it performs: `args = copy.deepcopy(SYSTEM_DEFAULTS)` followed by
`args.update(kwargs)`; `args` is then passed to `forcefield.createSystem`.
File parsing and system construction are library-side.  Returns the options
passed to `createSystem` and the module-level defaults dict as it stands after
the call (the update is applied to the deep copy, never to the original). -/
def from_pdb (system_defaults kwargs : List (String × Val)) :
    List (String × Val) × List (String × Val) :=
  let args := dictUpdate (deepcopy system_defaults) kwargs
  (args, system_defaults)

/-- Model of `SystemMixin.from_gro` (`mmlite/system.py`): identical option handling to
`from_pdb`, with `top.createSystem(**args)` as the consumer. -/
def from_gro (system_defaults kwargs : List (String × Val)) :
    List (String × Val) × List (String × Val) :=
  let args := dictUpdate (deepcopy system_defaults) kwargs
  (args, system_defaults)

/-! ## Helper lemmas -/

/-- Case analysis on a character of an all-lowercase underscore-separated
name: it is the underscore, or a lowercase letter, which is alphabetic, fixed
by `toLower`, and not turned into an underscore by `toUpper`. -/
theorem lower_char_facts (c : Char) (h : c ∈ lowercaseOrUnderscore) :
    c = '_' ∨ (c.isAlpha = true ∧ c.toLower = c ∧ c.toUpper ≠ '_' ∧ c ≠ '_') := by
  unfold lowercaseOrUnderscore at h
  fin_cases h <;>
    first
      | exact Or.inl rfl
      | exact Or.inr ⟨by decide, by decide, by decide, by decide⟩

/-- On lowercase-or-underscore characters, the specification-level
camel-casing agrees with Python title-casing followed by underscore removal:
the flag `first` of the former is the negation of the `prevAlpha` flag of the
latter. -/
theorem specCamelAux_eq (cs : List Char)
    (h : ∀ c ∈ cs, c ∈ lowercaseOrUnderscore) :
    ∀ b : Bool, specCamelAux b cs = (pyTitleAux (!b) cs).filter (fun c => c ≠ '_') := by
  induction cs with
  | nil => intro b; rfl
  | cons c cs ih =>
    intro b
    have hc := lower_char_facts c (h c (List.mem_cons_self _ _))
    have htail : ∀ x ∈ cs, x ∈ lowercaseOrUnderscore :=
      fun x hx => h x (List.mem_cons_of_mem _ hx)
    rcases hc with h_ | ⟨halpha, hlow, hupne, hne⟩
    · subst h_
      simpa [specCamelAux, pyTitleAux, List.filter] using ih htail true
    · cases b <;>
        simp [specCamelAux, pyTitleAux, halpha, hlow, hne, hupne,
          ih htail false, List.filter]

/-- On all-lowercase underscore-separated names, the `camelcase` of the source
(`title()` then `replace('_', '')`) computes exactly the specification-level
camel-casing (capitalize each underscore-separated component and drop the
underscores). -/
theorem camelcase_eq_spec (q : String)
    (h : ∀ c ∈ q.data, c ∈ lowercaseOrUnderscore) :
    camelcase q = specCamelcase q := by
  unfold camelcase specCamelcase
  rw [specCamelAux_eq q.data h true]
  rfl

/-- Characterization of a successful single-name dispatch: the method is
`'get' + camelcase(name)` and `asNumpy=True` is passed exactly on the
substring test. -/
theorem state_property_one_spec (st : MMState) (q : String) (c : AccessorCall)
    (h : state_property_one st q = .ok c) :
    c.method = "get" ++ camelcase q ∧
    c.kwargs = (if pyInStr q "forces periodic_box_vectors positions velocities"
                then [("asNumpy", true)] else []) := by
  unfold state_property_one getattrState at h
  by_cases hmem : ("get" ++ camelcase q) ∈ st.accessors
  · simp only [if_pos hmem] at h
    split at h <;> cases h <;> simp_all
  · simp only [if_neg hmem] at h
    simp at h

/-- A `Sum.inl` result of `state_property` comes from the single-word branch. -/
theorem state_property_inl (st : MMState) (q : String) (c : AccessorCall)
    (h : state_property st q = .ok (Sum.inl c)) :
    (pySplit q).length = 1 ∧ state_property_one st q = .ok c := by
  unfold state_property at h
  split at h
  · refine ⟨by assumption, ?_⟩
    cases ho : state_property_one st q <;> rw [ho] at h <;>
      simp [Except.map] at h
    rw [h]
  · exfalso
    cases hm : (pySplit q).mapM (state_property_one st) <;> rw [hm] at h <;>
      simp [Except.map] at h

/-- Deduplication never loses a key: a member of the input list is in the
output or was already seen. -/
theorem mem_dedupKeysAux (x : String) :
    ∀ (l seen : List String), x ∈ l → x ∈ dedupKeysAux seen l ∨ x ∈ seen := by
  intro l
  induction l with
  | nil => intro seen h; cases h
  | cons k ks ih =>
    intro seen hx
    rcases List.mem_cons.mp hx with rfl | hx'
    · by_cases hk : x ∈ seen
      · exact Or.inr hk
      · left; simp [dedupKeysAux, hk]
    · by_cases hk : k ∈ seen
      · simp only [dedupKeysAux, if_pos hk]
        exact ih seen hx'
      · simp only [dedupKeysAux, if_neg hk]
        rcases ih (k :: seen) hx' with h | h
        · exact Or.inl (List.mem_cons_of_mem _ h)
        · rcases List.mem_cons.mp h with rfl | h2
          · exact Or.inl (List.mem_cons_self _ _)
          · exact Or.inr h2

/-- Setting a key stores its value. -/
theorem dictSet_lookup_self (d : List (String × Val)) (k : String) (v : Val) :
    (dictSet d k v).lookup k = some v := by
  induction d with
  | nil => simp [dictSet, List.lookup_cons]
  | cons p ps ih =>
    obtain ⟨k0, v0⟩ := p
    by_cases h : k0 = k
    · subst h; simp [dictSet, List.lookup_cons]
    · rw [dictSet, if_neg h, List.lookup_cons, beq_false_of_ne (Ne.symm h)]
      exact ih

/-- Setting a key leaves the other keys unchanged. -/
theorem dictSet_lookup_ne (d : List (String × Val)) (k k' : String) (v : Val)
    (h : k' ≠ k) : (dictSet d k v).lookup k' = d.lookup k' := by
  induction d with
  | nil => simp [dictSet, List.lookup_cons, beq_false_of_ne h]
  | cons p ps ih =>
    obtain ⟨k0, v0⟩ := p
    by_cases h0 : k0 = k
    · subst h0
      rw [dictSet, if_pos rfl, List.lookup_cons, List.lookup_cons,
        beq_false_of_ne h]
    · rw [dictSet, if_neg h0, List.lookup_cons, List.lookup_cons]
      by_cases h1 : k' = k0
      · simp [h1]
      · rw [beq_false_of_ne h1]
        exact ih

/-- Unfolding one step of `dictUpdate`. -/
theorem dictUpdate_cons (d : List (String × Val)) (p : String × Val)
    (kw : List (String × Val)) :
    dictUpdate d (p :: kw) = dictUpdate (dictSet d p.1 p.2) kw := rfl

/-- Updating with keyword arguments not containing a key leaves that key's
binding unchanged. -/
theorem dictUpdate_lookup_not_mem (kw : List (String × Val)) (k : String) :
    ∀ d, k ∉ kw.map Prod.fst → (dictUpdate d kw).lookup k = d.lookup k := by
  induction kw with
  | nil => intro d _; rfl
  | cons p rest ih =>
    intro d hk
    rw [dictUpdate_cons]
    have hne : k ≠ p.1 := by
      intro he; exact hk (by simp [he])
    rw [ih _ (fun hm => hk (by simp [hm]))]
    exact dictSet_lookup_ne d p.1 k p.2 hne

/-- Updating with key-unique keyword arguments makes each supplied binding
win. -/
theorem dictUpdate_lookup_mem (kw : List (String × Val)) (k : String) (v : Val) :
    ∀ d, (kw.map Prod.fst).Nodup → (k, v) ∈ kw →
      (dictUpdate d kw).lookup k = some v := by
  induction kw with
  | nil => intro d _ h; cases h
  | cons p rest ih =>
    intro d hnd hm
    rw [dictUpdate_cons]
    have hnd2 := hnd
    rw [List.map_cons] at hnd2
    have hnd' := List.nodup_cons.mp hnd2
    rcases List.mem_cons.mp hm with rfl | hm'
    · have hk : (k, v).1 ∉ rest.map Prod.fst := hnd'.1
      rw [dictUpdate_lookup_not_mem rest k _ hk]
      exact dictSet_lookup_self d k v
    · exact ih _ hnd'.2 hm'

/-- Filtering a key out of a dict leaves lookups of other keys unchanged. -/
theorem lookup_filterOut_ne (l : List (String × Val)) (k k' : String)
    (h : k' ≠ k) :
    (l.filter (fun p => p.1 ≠ k)).lookup k' = l.lookup k' := by
  induction l with
  | nil => rfl
  | cons p ps ih =>
    obtain ⟨k0, v0⟩ := p
    by_cases h0 : k0 = k
    · subst h0
      rw [List.filter_cons, if_neg (by simp), List.lookup_cons,
        beq_false_of_ne h]
      exact ih
    · rw [List.filter_cons, if_pos (by simpa using h0), List.lookup_cons,
        List.lookup_cons]
      by_cases h1 : k' = k0
      · simp [h1]
      · rw [beq_false_of_ne h1]
        exact ih

/-- Filtering a key out of a dict removes its binding. -/
theorem lookup_filterOut_self (l : List (String × Val)) (k : String) :
    (l.filter (fun p => p.1 ≠ k)).lookup k = none := by
  induction l with
  | nil => rfl
  | cons p ps ih =>
    obtain ⟨k0, v0⟩ := p
    by_cases h0 : k0 = k
    · subst h0
      rw [List.filter_cons, if_neg (by simp)]
      exact ih
    · rw [List.filter_cons, if_pos (by simpa using h0), List.lookup_cons,
        beq_false_of_ne (Ne.symm h0)]
      exact ih

/-! ## Claim theorems -/

/-- C1: contrary to the claim (and to the comment in `setup_context` itself,
"We have to create a new integrator for every Context since it takes
ownership of the integrator we pass it"), the integrator passed to the
context is the cached `self.integrator` property, so two successive
`setup_context` calls on one `Simulation` construct two distinct contexts
bound to the same integrator object. -/
theorem setup_context_reuses_cached_integrator :
    ∃ r1, SimulationObj.setup_context ⟨⟨3⟩, [], none, ⟨0, 0⟩⟩ ⟨1⟩ = .ok r1 ∧
    ∃ r2, SimulationObj.setup_context r1.2.1 r1.2.2 = .ok r2 ∧
      r2.1.id ≠ r1.1.id ∧ r2.1.integratorId = r1.1.integratorId := by
  refine ⟨(⟨2, 1⟩, ⟨⟨3⟩, [], some ⟨1, .verlet, [oneFemtosecond]⟩, ⟨2, 1⟩⟩, ⟨3⟩),
    by decide,
    (⟨3, 1⟩, ⟨⟨3⟩, [], some ⟨1, .verlet, [oneFemtosecond]⟩, ⟨3, 1⟩⟩, ⟨4⟩),
    by decide, by decide, by decide⟩

/-- C2 (counterexample): the allow-list test of `state_property` is a Python
substring test, so the single-word name `'force'` — not one of
`{forces, periodic_box_vectors, positions, velocities}` — is also dispatched
with `asNumpy=True` on a state object exposing a `getForce` accessor. -/
theorem state_property_asNumpy_on_force :
    state_property ⟨["getForce"], none⟩ "force"
      = .ok (Sum.inl ⟨"getForce", [("asNumpy", true)]⟩) ∧
    (["forces", "periodic_box_vectors", "positions", "velocities"].contains
      "force") = false :=
  ⟨by decide, by decide⟩

/-- C2 (amended): for every single-word quantity name, the accessor is called
with `asNumpy=True` exactly when the name is a contiguous substring of the
string `'forces periodic_box_vectors positions velocities'` (which contains
the four allow-listed names, but also fragments of them such as `'force'`),
and with no `asNumpy` argument otherwise. -/
theorem state_property_asNumpy_iff_substring (st : MMState) (q : String)
    (c : AccessorCall) (h : state_property st q = .ok (Sum.inl c)) :
    (c.kwargs = [("asNumpy", true)] ↔
      q.data <:+: "forces periodic_box_vectors positions velocities".data) := by
  obtain ⟨-, hone⟩ := state_property_inl st q c h
  obtain ⟨-, hk⟩ := state_property_one_spec st q c hone
  unfold pyInStr at hk
  by_cases hin : q.data <:+: "forces periodic_box_vectors positions velocities".data
  · rw [if_pos (by exact decide_eq_true hin)] at hk
    simp [hk, hin]
  · rw [if_neg (by simpa using hin)] at hk
    simp [hk, hin]

/-- C2 (witness): the amended statement evaluated at the allow-listed name
`'forces'` on a state exposing `getForces`. -/
theorem state_property_asNumpy_iff_substring_witness :
    ((⟨"getForces", [("asNumpy", true)]⟩ : AccessorCall).kwargs
        = [("asNumpy", true)] ↔
      "forces".data <:+: "forces periodic_box_vectors positions velocities".data) :=
  state_property_asNumpy_iff_substring ⟨["getForces"], none⟩ "forces"
    ⟨"getForces", [("asNumpy", true)]⟩ (by decide)

/-- C3: the `simulation` attribute of a test-system instance is lazily
constructed and cached: on an instance whose cache is empty (and whose
integrator class is one of the two recognized ones, so that construction
succeeds), the first read constructs a simulation, a second read returns the
same cached object without touching the instance or the allocator, and after
`reset` the next read constructs a different simulation object. -/
theorem mdsys_simulation_lazy (m : MdSys) (w : Alloc)
    (hnone : m._simulation = none)
    (hcls : clsName m.integrator_class = some "VerletIntegrator" ∨
            clsName m.integrator_class = some "LangevinIntegrator") :
    ∃ s1 m1 w1, MdSys.simulation m w = .ok (s1, m1, w1) ∧
      MdSys.simulation m1 w1 = .ok (s1, m1, w1) ∧
      ∃ s2 m2 w2, MdSys.simulation (MdSys.reset m1) w1 = .ok (s2, m2, w2) ∧
        s2 ≠ s1 := by
  refine ⟨w.nextId + 1, { m with _simulation := some (w.nextId + 1) },
    ⟨w.nextId + 2⟩, ?_, ?_,
    w.nextId + 3, { m with _simulation := some (w.nextId + 3) },
    ⟨w.nextId + 4⟩, ?_, by omega⟩
  · rcases hcls with h | h <;>
      simp [MdSys.simulation, hnone, MdSys.integrator, h, fresh]
  · simp [MdSys.simulation]
  · rcases hcls with h | h <;>
      simp [MdSys.simulation, MdSys.reset, MdSys.integrator, h, fresh]

/-- C3 (witness): the caching behaviour evaluated on a concrete fresh
instance with the default `VerletIntegrator` class. -/
theorem mdsys_simulation_lazy_witness :
    ∃ s1 m1 w1,
      MdSys.simulation
        ⟨.cls "VerletIntegrator", .qty ⟨2, "femtosecond"⟩,
         .qty ⟨91, "1/picosecond"⟩, .qty ⟨298, "kelvin"⟩, none⟩ ⟨0⟩
        = .ok (s1, m1, w1) ∧
      MdSys.simulation m1 w1 = .ok (s1, m1, w1) ∧
      ∃ s2 m2 w2, MdSys.simulation (MdSys.reset m1) w1 = .ok (s2, m2, w2) ∧
        s2 ≠ s1 :=
  mdsys_simulation_lazy _ ⟨0⟩ rfl (Or.inl rfl)

/-- C4: `Simulation.create_integrator` raises `ValueError(name)` for every
name other than `'verlet'` and `'langevin'`; `MdSys.integrator`, on an
instance whose `integrator_class` is a class (so that the method's read of
`__name__` succeeds), raises `ValueError` whenever that class is named
neither `'VerletIntegrator'` nor `'LangevinIntegrator'`; and for the
recognized names and classes both return an integrator without error. -/
theorem invalid_integrator_valueError (name : String) (dt : Val)
    (kwargs : List (String × Val)) (w : Alloc) (m : MdSys)
    (hn1 : name ≠ "verlet") (hn2 : name ≠ "langevin")
    (hcls : ∃ n, clsName m.integrator_class = some n)
    (hc1 : clsName m.integrator_class ≠ some "VerletIntegrator")
    (hc2 : clsName m.integrator_class ≠ some "LangevinIntegrator") :
    create_integrator name dt kwargs w = .error (.valueError name) ∧
    (∃ msg, MdSys.integrator m w = .error (.valueError msg)) ∧
    (∃ r, create_integrator "verlet" dt kwargs w = .ok r) ∧
    (∃ r, create_integrator "langevin" dt kwargs w = .ok r) ∧
    (∀ m2 : MdSys, ∀ w2 : Alloc,
      (clsName m2.integrator_class = some "VerletIntegrator" ∨
       clsName m2.integrator_class = some "LangevinIntegrator") →
      ∃ r, MdSys.integrator m2 w2 = .ok r) := by
  refine ⟨?_, ?_, ?_, ?_, ?_⟩
  · unfold create_integrator
    rw [if_neg hn1, if_neg hn2]
  · obtain ⟨n, hn⟩ := hcls
    have hv : n ≠ "VerletIntegrator" := fun he => hc1 (by rw [hn, he])
    have hl : n ≠ "LangevinIntegrator" := fun he => hc2 (by rw [hn, he])
    exact ⟨n, by simp [MdSys.integrator, hn, hv, hl]⟩
  · refine ⟨(⟨w.nextId, .verlet, [dt]⟩, ⟨w.nextId + 1⟩), ?_⟩
    unfold create_integrator
    rw [if_pos rfl]
    rfl
  · refine ⟨(⟨w.nextId, .langevin,
      [((kwargs.lookup "temperature").getD defaults_temperature),
       (((kwargs.filter (fun p => p.1 ≠ "temperature")).lookup "friction").getD
          defaults_friction), dt]⟩, ⟨w.nextId + 1⟩), ?_⟩
    unfold create_integrator dictPop
    rw [if_neg (by decide), if_pos rfl]
    rfl
  · intro m2 w2 hcl
    rcases hcl with h | h
    · exact ⟨(⟨w2.nextId, .verlet, [m2.dt]⟩, ⟨w2.nextId + 1⟩),
        by simp [MdSys.integrator, h, fresh]⟩
    · exact ⟨(⟨w2.nextId, .langevin,
        [m2.temperature, m2.friction, m2.dt]⟩, ⟨w2.nextId + 1⟩),
        by simp [MdSys.integrator, h, fresh]⟩

/-- C4 (witness): the error behaviour evaluated at the unrecognized name
`'euler'` and an instance whose integrator class is `BrownianIntegrator`. -/
theorem invalid_integrator_valueError_witness :
    create_integrator "euler" oneFemtosecond [] ⟨0⟩
      = .error (.valueError "euler") ∧
    (∃ msg, MdSys.integrator
        ⟨.cls "BrownianIntegrator", .qty ⟨2, "femtosecond"⟩,
         .qty ⟨91, "1/picosecond"⟩, .qty ⟨298, "kelvin"⟩, none⟩ ⟨0⟩
      = .error (.valueError msg)) ∧
    (∃ r, create_integrator "verlet" oneFemtosecond [] ⟨0⟩ = .ok r) ∧
    (∃ r, create_integrator "langevin" oneFemtosecond [] ⟨0⟩ = .ok r) ∧
    (∀ m2 : MdSys, ∀ w2 : Alloc,
      (clsName m2.integrator_class = some "VerletIntegrator" ∨
       clsName m2.integrator_class = some "LangevinIntegrator") →
      ∃ r, MdSys.integrator m2 w2 = .ok r) :=
  invalid_integrator_valueError "euler" oneFemtosecond [] ⟨0⟩
    ⟨.cls "BrownianIntegrator", .qty ⟨2, "femtosecond"⟩,
     .qty ⟨91, "1/picosecond"⟩, .qty ⟨298, "kelvin"⟩, none⟩
    (by decide) (by decide) ⟨"BrownianIntegrator", rfl⟩ (by decide) (by decide)

/-- C5 (counterexample): on a state exposing the standard accessors, the
unknown single-word name `'bogus'` makes `state_property` raise
`AttributeError` (from `getattr`), not `ValueError` as claimed. -/
theorem state_property_bogus_attributeError :
    state_property ⟨stdStateAccessors, none⟩ "bogus"
      = .error (.attributeError "getBogus") ∧
    isValueError (state_property ⟨stdStateAccessors, none⟩ "bogus") = false :=
  ⟨by decide, by decide⟩

/-- C5 (amended): for every single-word property name for which the state
object has no corresponding accessor, `state_property` raises an
`AttributeError` (an attribute-lookup error propagated from `getattr`), not a
`ValueError`. -/
theorem state_property_unknown_accessor (st : MMState) (q : String)
    (h1 : (pySplit q).length = 1)
    (h2 : ("get" ++ camelcase q) ∉ st.accessors) :
    state_property st q = .error (.attributeError ("get" ++ camelcase q)) ∧
    isValueError (state_property st q) = false := by
  have he : state_property st q
      = .error (.attributeError ("get" ++ camelcase q)) := by
    unfold state_property
    rw [if_pos h1]
    unfold state_property_one getattrState
    simp only [if_neg h2]
    rfl
  exact ⟨he, by rw [he]; rfl⟩

/-- C5 (witness): the amended statement evaluated at the name `'bogus'` on a
state with no accessors. -/
theorem state_property_unknown_accessor_witness :
    state_property ⟨[], none⟩ "bogus" = .error (.attributeError "getBogus") ∧
    isValueError (state_property ⟨[], none⟩ "bogus") = false :=
  state_property_unknown_accessor ⟨[], none⟩ "bogus" (by decide) (by decide)

/-- C6: for every all-lowercase underscore-separated single-word quantity
name, `state_property` calls the state method named `'get'` followed by the
name title-cased with underscores removed (for example `'potential_energy'`
maps to `'getPotentialEnergy'`), and `simulation_state` requests each
quantity of `data` by setting the keyword `'get'` plus the same camel-cased
name to `True` in the `getState` call. -/
theorem quantity_name_dispatch (st : MMState) (q : String) (c : AccessorCall)
    (hq : ∀ ch ∈ q.data, ch ∈ lowercaseOrUnderscore)
    (h : state_property st q = .ok (Sum.inl c))
    (cx : Context) (data : List String) (a : String) (ha : a ∈ data)
    (haChars : ∀ ch ∈ a.data, ch ∈ lowercaseOrUnderscore)
    (pbc : Bool) (g : Int) :
    c.method = "get" ++ specCamelcase q ∧
    (∃ getters,
      (simulation_state (.context cx) (.list data) pbc g).request
        = some (getters, pbc, g) ∧
      "get" ++ specCamelcase a ∈ getters) ∧
    "get" ++ specCamelcase "potential_energy" = "getPotentialEnergy" := by
  obtain ⟨-, hone⟩ := state_property_inl st q c h
  obtain ⟨hm, -⟩ := state_property_one_spec st q c hone
  refine ⟨by rw [hm, camelcase_eq_spec q hq], ?_, by decide⟩
  refine ⟨requestKeys data, rfl, ?_⟩
  rw [← camelcase_eq_spec a haChars]
  have hmem : "get" ++ camelcase a ∈ data.map (fun x => "get" ++ camelcase x) :=
    List.mem_map_of_mem _ ha
  rcases mem_dedupKeysAux _ _ [] hmem with h2 | h2
  · exact h2
  · cases h2

/-- C6 (witness): the dispatch evaluated at the name `'positions'` and a
`getState` request for `'potential_energy'`. -/
theorem quantity_name_dispatch_witness :
    ((⟨"getPositions", [("asNumpy", true)]⟩ : AccessorCall).method
        = "get" ++ specCamelcase "positions") ∧
    (∃ getters,
      (simulation_state (.context ⟨0, 0⟩) (.list ["potential_energy"])
          false (-1)).request
        = some (getters, false, -1) ∧
      "get" ++ specCamelcase "potential_energy" ∈ getters) ∧
    "get" ++ specCamelcase "potential_energy" = "getPotentialEnergy" :=
  quantity_name_dispatch ⟨["getPositions"], none⟩ "positions"
    ⟨"getPositions", [("asNumpy", true)]⟩ (by decide) (by decide)
    ⟨0, 0⟩ ["potential_energy"] "potential_energy" (by decide) (by decide)
    false (-1)

/-- C7: an `MdSys` constructed without the corresponding keyword arguments
gets `dt = 2.0` femtoseconds, `friction = 91.0` per picosecond and
`temperature = 298.0` kelvin; a supplied keyword wins over the default, and
the keys `dt`, `friction` and `temperature` are absent from the keyword
arguments forwarded to the base class. -/
theorem mdsys_init_defaults (kwargs : List (String × Val)) :
    (MdSys.init kwargs).1.dt
      = (kwargs.lookup "dt").getD (.qty ⟨2, "femtosecond"⟩) ∧
    (MdSys.init kwargs).1.friction
      = (kwargs.lookup "friction").getD (.qty ⟨91, "1/picosecond"⟩) ∧
    (MdSys.init kwargs).1.temperature
      = (kwargs.lookup "temperature").getD (.qty ⟨298, "kelvin"⟩) ∧
    (MdSys.init kwargs).2.lookup "dt" = none ∧
    (MdSys.init kwargs).2.lookup "friction" = none ∧
    (MdSys.init kwargs).2.lookup "temperature" = none := by
  unfold MdSys.init dictPop
  refine ⟨?_, ?_, ?_, ?_, ?_, ?_⟩
  · simp only []
    rw [lookup_filterOut_ne _ _ _ (by decide)]
  · simp only []
    rw [lookup_filterOut_ne _ _ _ (by decide),
      lookup_filterOut_ne _ _ _ (by decide)]
  · simp only []
    rw [lookup_filterOut_ne _ _ _ (by decide),
      lookup_filterOut_ne _ _ _ (by decide),
      lookup_filterOut_ne _ _ _ (by decide)]
  · simp only []
    rw [lookup_filterOut_ne _ _ _ (by decide),
      lookup_filterOut_ne _ _ _ (by decide), lookup_filterOut_self]
  · simp only []
    rw [lookup_filterOut_ne _ _ _ (by decide), lookup_filterOut_self]
  · simp only []
    rw [lookup_filterOut_self]

/-- C8: passing a `State` where a simulation or context is expected is the
identity: `simulation_state` and `context_state` return the state itself,
unchanged, for all values of the other arguments. -/
theorem state_argument_identity (st : MMState) (data : DataArg) (pbc : Bool)
    (g : Int) :
    simulation_state (.state st) data pbc g = st ∧
    context_state (.state st) data pbc g = st :=
  ⟨rfl, rfl⟩

/-- C9: `Simulation.serialize` always returns the XML serialization of the
system as its first component; for a system with zero particles the second
component is `None`, and for a system with at least one particle the second
component is the XML serialization of a state containing the simulation
positions. -/
theorem serialize_graceful (s : SimulationObj) (w : Alloc) :
    ((s.serialize w).1.1 = serializeSystemXml s.system) ∧
    (s.system.numParticles = 0 → (s.serialize w).1.2 = none) ∧
    (0 < s.system.numParticles →
      (s.serialize w).1.2 = some (serializeStateXml s.positions)) := by
  unfold SimulationObj.serialize
  by_cases h : s.system.numParticles = 0 <;> simp [h, fresh]

/-- C9 (witness): serialization evaluated on an empty system and on a
three-particle system with one stored position. -/
theorem serialize_graceful_witness :
    (SimulationObj.serialize ⟨⟨0⟩, [], none, ⟨0, 0⟩⟩ ⟨5⟩).1.2 = none ∧
    (SimulationObj.serialize ⟨⟨3⟩, [(1, 2, 3)], none, ⟨0, 0⟩⟩ ⟨5⟩).1.2
      = some (serializeStateXml [(1, 2, 3)]) :=
  ⟨(serialize_graceful ⟨⟨0⟩, [], none, ⟨0, 0⟩⟩ ⟨5⟩).2.1 rfl,
   (serialize_graceful ⟨⟨3⟩, [(1, 2, 3)], none, ⟨0, 0⟩⟩ ⟨5⟩).2.2 (by decide)⟩

/-- C10: `from_pdb` and `from_gro` pass to `createSystem` exactly the
module-level `SYSTEM_DEFAULTS` updated by the caller's keyword arguments,
with the keyword arguments winning on common keys and the defaults surviving
on the others, and the `SYSTEM_DEFAULTS` dict itself is unchanged by the
call. -/
theorem from_structure_files_options (kwargs : List (String × Val)) :
    (from_pdb SYSTEM_DEFAULTS kwargs).1 = dictUpdate SYSTEM_DEFAULTS kwargs ∧
    (from_gro SYSTEM_DEFAULTS kwargs).1 = dictUpdate SYSTEM_DEFAULTS kwargs ∧
    (from_pdb SYSTEM_DEFAULTS kwargs).2 = SYSTEM_DEFAULTS ∧
    (from_gro SYSTEM_DEFAULTS kwargs).2 = SYSTEM_DEFAULTS ∧
    (∀ k v, (kwargs.map Prod.fst).Nodup → (k, v) ∈ kwargs →
      ((from_pdb SYSTEM_DEFAULTS kwargs).1).lookup k = some v) ∧
    (∀ k, k ∉ kwargs.map Prod.fst →
      ((from_pdb SYSTEM_DEFAULTS kwargs).1).lookup k
        = SYSTEM_DEFAULTS.lookup k) := by
  refine ⟨rfl, rfl, rfl, rfl, ?_, ?_⟩
  · intro k v hnd hm
    exact dictUpdate_lookup_mem kwargs k v _ hnd hm
  · intro k hk
    exact dictUpdate_lookup_not_mem kwargs k _ hk

/-- C10 (witness): the option merging evaluated at keyword arguments that
override `rigidWater` and add `removeCMMotion`. -/
theorem from_structure_files_options_witness :
    ((from_pdb SYSTEM_DEFAULTS
        [("rigidWater", .boolv false), ("removeCMMotion", .boolv true)]).1).lookup
      "rigidWater" = some (.boolv false) ∧
    ((from_pdb SYSTEM_DEFAULTS
        [("rigidWater", .boolv false), ("removeCMMotion", .boolv true)]).1).lookup
      "nonbondedMethod" = SYSTEM_DEFAULTS.lookup "nonbondedMethod" :=
  ⟨(from_structure_files_options _).2.2.2.2.1 "rigidWater" (.boolv false)
      (by decide) (by decide),
   (from_structure_files_options _).2.2.2.2.2 "nonbondedMethod" (by decide)⟩
